import Mathlib

/-
Verification of the mkp-builder packaging pipeline.

The definitions below are a shallow embedding of `mkp-builder.py`:
  * `Entry` models a filesystem tree (regular files carry their executable
    bit and, for Python sources, whether they parse).
  * `rglobFiles` models `Path.rglob('*')` filtered by `is_file()`,
    returning paths relative to the globbed directory.
  * `collect_files`, `create_tar_file`, `create_package_tars`,
    `generate_metadata` (via `writeInfo` / `writeInfoJson`),
    `create_mkp_package`, `auto_detect_package_name`, `format_size` and
    `buildPipe` are direct translations of the corresponding methods of
    `MKPBuilder`.
-/

set_option maxRecDepth 8192

namespace MkpBuilder

/-- A filesystem entry: a regular file (with its executable bit, and a flag
telling whether the file is syntactically valid Python when parsed), or a
directory with an ordered list of children. -/
inductive Entry where
  | file (nm : String) (exec : Bool) (pyOk : Bool)
  | dir (nm : String) (children : List Entry)

/-- The entry's own name (`Path.name`). -/
def Entry.nameOf : Entry → String
  | .file nm _ _ => nm
  | .dir nm _ => nm

/-- `Path.is_file()`. -/
def Entry.isFile : Entry → Bool
  | .file _ _ _ => true
  | .dir _ _ => false

/-- `os.access(f, os.X_OK)` for a regular file. -/
def Entry.isExec : Entry → Bool
  | .file _ e _ => e
  | .dir _ _ => false

/-- Find a child by name in a directory listing. -/
def findEntry (es : List Entry) (nm : String) : Option Entry :=
  es.find? (fun e => e.nameOf == nm)

/-- Navigate a relative path (list of segments) from a directory listing. -/
def lookupPath : List Entry → List String → Option Entry
  | _, [] => none
  | es, nm :: rest =>
    match findEntry es nm, rest with
    | none, _ => none
    | some e, [] => some e
    | some (.dir _ cs), _ :: _ => lookupPath cs rest
    | some (.file _ _ _), _ :: _ => none

/-- Whether the path denotes a regular file under the given listing. -/
def isFileB (es : List Entry) (p : List String) : Bool :=
  match lookupPath es p with
  | some (.file _ _ _) => true
  | _ => false

/-- The children of the directory at a path (empty if absent or a file). -/
def childrenAt (t : List Entry) (p : List String) : List Entry :=
  match lookupPath t p with
  | some (.dir _ cs) => cs
  | _ => []

/-- The regular files directly in a listing, as singleton relative paths. -/
def childFiles (es : List Entry) : List (List String) :=
  es.filterMap (fun e => match e with
    | .file nm _ _ => some [nm]
    | .dir _ _ => none)

mutual

/-- `dir.rglob('*')` restricted to entries with `is_file()`, as relative
segment paths: the files directly in the directory first, then the files of
each subdirectory, subdirectories visited depth-first in listing order. -/
def rglobFiles (es : List Entry) : List (List String) :=
  childFiles es ++ subdirFiles es

/-- The files found inside the subdirectories of a listing. -/
def subdirFiles : List Entry → List (List String)
  | [] => []
  | .file _ _ _ :: rest => subdirFiles rest
  | .dir nm cs :: rest => (rglobFiles cs).map (fun p => nm :: p) ++ subdirFiles rest

end

mutual

/-- Well-formed directory listing: sibling names are distinct, recursively. -/
def wfb : List Entry → Bool
  | [] => true
  | e :: rest => wfbEntry e && !(rest.any (fun x => x.nameOf == e.nameOf)) && wfb rest

/-- Well-formed entry: directories have well-formed listings. -/
def wfbEntry : Entry → Bool
  | .file _ _ _ => true
  | .dir _ cs => wfb cs

end

/-- Does the first list lead (appear as an initial run of) the second? -/
def leadSeq {α : Type} [BEq α] : List α → List α → Bool
  | [], _ => true
  | _ :: _, [] => false
  | a :: as, b :: bs => a == b && leadSeq as bs

/-- Does the second list contain the first as a contiguous run? -/
def containsSeq {α : Type} [BEq α] (pat : List α) : List α → Bool
  | [] => pat.isEmpty
  | b :: bs => leadSeq pat (b :: bs) || containsSeq pat bs

/-- Python's `pat in hay` on strings: substring containment. -/
def strContains (hay pat : String) : Bool :=
  containsSeq pat.data hay.data

/-- Python's `s.endswith(suf)` / `rglob('*.py')` name test. -/
def strEndsWith (s suf : String) : Bool :=
  leadSeq suf.data.reverse s.data.reverse

/-- Join path segments with `/` (`str()` of a relative `Path` on POSIX). -/
def joinPath (p : List String) : String := String.intercalate "/" p

/-- The last path segment (`Path.name` of a relative path). -/
def lastSeg (p : List String) : String := p.getLastD ""

/-- Spec wording: does the recorded path contain a build-cache directory
segment (`__pycache__`)? -/
def hasCacheSeg (p : String) : Bool := strContains p "__pycache__"

/-- `local/share/check_mk/agents` relative to the project root. -/
def agentsRelPath : List String := ["local", "share", "check_mk", "agents"]

/-- `local/lib/python3/cmk_addons/plugins` relative to the project root. -/
def addonsRelPath : List String := ["local", "lib", "python3", "cmk_addons", "plugins"]

/-- `local/lib/python3` relative to the project root. -/
def libRelPath : List String := ["local", "lib", "python3"]

/-- `cmk/base/cee/plugins/bakery` relative to `local/lib/python3`. -/
def bakerySubPath : List String := ["cmk", "base", "cee", "plugins", "bakery"]

/-- The bakery directory relative to the project root. -/
def bakeryAbsPath : List String := libRelPath ++ bakerySubPath

/-- The agents plugins directory relative to the project root. -/
def pluginsAbsPath : List String := agentsRelPath ++ ["plugins"]

/-- The agents section of `MKPBuilder.collect_files`: every regular file
anywhere under `local/share/check_mk/agents`, relative to that directory
(`rglob` over a non-directory yields nothing). -/
def collect_agents_segs (t : List Entry) : List (List String) :=
  match lookupPath t agentsRelPath with
  | some (.dir _ cs) => rglobFiles cs
  | _ => []

/-- The addon-plugins section of `MKPBuilder.collect_files`: all files of a
subdirectory named after the package, plus files of the four conventional
subdirectories whose name contains the package name, all relative to the
addons plugins directory. -/
def collect_addons_segs (t : List Entry) (pkg : String) : List (List String) :=
  match lookupPath t addonsRelPath with
  | none => []
  | some addons =>
    let cs := match addons with
      | .dir _ cs => cs
      | .file _ _ _ => []
    let pkgPart :=
      match findEntry cs pkg with
      | some (.dir _ pcs) => (rglobFiles pcs).map (fun p => pkg :: p)
      | _ => []
    let subPart := (["agent_based", "checkman", "graphing", "rulesets"].map (fun sub =>
      match findEntry cs sub with
      | some (.dir _ scs) =>
        ((rglobFiles scs).filter (fun p => strContains (lastSeg p) pkg)).map
          (fun p => sub :: p)
      | _ => [])).flatten
    pkgPart ++ subPart

/-- The library section of `MKPBuilder.collect_files`: files under the bakery
directory whose name contains the package name, relative to
`local/lib/python3` (one level above the bakery directory). -/
def collect_lib_segs (t : List Entry) (pkg : String) : List (List String) :=
  match lookupPath t bakeryAbsPath with
  | some (.dir _ cs) =>
    ((rglobFiles cs).filter (fun p => strContains (lastSeg p) pkg)).map
      (fun p => bakerySubPath ++ p)
  | _ => []

/-- `MKPBuilder.collect_files`: the ordered file-group map, with group names
as dictionary keys in insertion order. -/
def collect_files (t : List Entry) (pkg : String) : List (String × List String) :=
  [("agents", (collect_agents_segs t).map joinPath),
   ("cmk_addons_plugins", (collect_addons_segs t pkg).map joinPath),
   ("lib", (collect_lib_segs t pkg).map joinPath)]

/-- `files[key]` access on the collected map (groups are always present). -/
def getGroup (fs : List (String × List String)) (k : String) : List String :=
  match fs.find? (fun p => p.1 == k) with
  | some p => p.2
  | none => []

/-- An intermediate section archive: the ordered entry names stored in it. -/
structure TarFile where
  entries : List String
deriving DecidableEq, Repr

/-- `MKPBuilder.create_tar_file`: open the tar for writing (creating it even
when no file is added) and add each listed path that still exists under the
base directory. -/
def create_tar_file (baseChildren : List Entry) (files : List String) : TarFile :=
  ⟨files.filter (fun f => (lookupPath baseChildren (f.splitOn "/")).isSome)⟩

/-- `MKPBuilder.create_package_tars`: the three section archives, named after
their group with a `.tar` suffix, each rooted at its base directory. -/
def create_package_tars (t : List Entry) (files : List (String × List String)) :
    List (String × TarFile) :=
  [("agents.tar", create_tar_file (childrenAt t agentsRelPath) (getGroup files "agents")),
   ("cmk_addons_plugins.tar",
    create_tar_file (childrenAt t addonsRelPath) (getGroup files "cmk_addons_plugins")),
   ("lib.tar", create_tar_file (childrenAt t libRelPath) (getGroup files "lib"))]

/-- The build configuration after CLI/config merging (`MKPBuilder.config`):
`none` means the key is absent from the dictionary. -/
structure Config where
  version : String
  name : Option String
  title : Option String
  author : Option String
  description : Option String
  download_url : Option String
  cmk_min_version : String
  cmk_packaged_version : String
  version_usable_until : Option String
  validate_python : Bool
  output_dir : List String
  workDirName : String
deriving DecidableEq, Repr

/-- `MKPBuilder.auto_detect_package_name`: if the agents plugins directory
exists and holds exactly one executable regular file, use its name; a file at
that path makes `iterdir()` raise `NotADirectoryError`; otherwise fall back
to `work_dir.name or 'unknown_package'`. -/
def auto_detect_package_name (t : List Entry) (workDirName : String) :
    Except String String :=
  match lookupPath t pluginsAbsPath with
  | some (.dir _ cs) =>
    match cs.filter (fun e => e.isFile && e.isExec) with
    | [p] => .ok p.nameOf
    | _ => .ok (if workDirName = "" then "unknown_package" else workDirName)
  | some (.file _ _ _) => .error "NotADirectoryError"
  | none => .ok (if workDirName = "" then "unknown_package" else workDirName)

/-- `MKPBuilder.set_defaults` name resolution: an explicitly configured name
wins, otherwise the auto-detected one. -/
def resolvedName (cfg : Config) (t : List Entry) : Except String String :=
  match cfg.name with
  | some nm => .ok nm
  | none => auto_detect_package_name t cfg.workDirName

/-- The in-memory manifest record (`info_data` in `generate_metadata`),
in dictionary insertion order. -/
structure InfoData where
  author : String
  description : String
  download_url : String
  files : List (String × List String)
  name : String
  title : String
  version : String
  min_required : String
  packaged : String
  usable_until : Option String
deriving DecidableEq, Repr

/-- A single-quote character, used by the hand-written `info` serializer. -/
def q1 : String := "\x27"

/-- One `'key': 'value',` line of the `info` file (values are spliced in
verbatim, without any escaping). -/
def sLine (k v : String) : String :=
  " " ++ q1 ++ k ++ q1 ++ ": " ++ q1 ++ v ++ q1 ++ ",\n"

/-- One `'key': None,` line of the `info` file. -/
def noneLine (k : String) : String :=
  " " ++ q1 ++ k ++ q1 ++ ": None,\n"

/-- One `'section': ['f1', 'f2'],` line of the `info` file. -/
def secLine (s : String) (l : List String) : String :=
  "  " ++ q1 ++ s ++ q1 ++ ": [" ++
    String.intercalate ", " (l.map (fun f => q1 ++ f ++ q1)) ++ "],\n"

/-- The `'files': {...},` block of the `info` file. -/
def filesChunk (fs : List (String × List String)) : String :=
  " " ++ q1 ++ "files" ++ q1 ++ ": \x7b\n" ++
    String.join (fs.map (fun p => secLine p.1 p.2)) ++ " \x7d,\n"

/-- The successive `f.write(...)` chunks producing the `info` file in
`MKPBuilder.generate_metadata`. -/
def infoChunks (d : InfoData) : List String :=
  ["\x7b\n",
   sLine "author" d.author,
   sLine "description" d.description,
   sLine "download_url" d.download_url,
   filesChunk d.files,
   sLine "name" d.name,
   sLine "title" d.title,
   sLine "version" d.version,
   sLine "version.min_required" d.min_required,
   sLine "version.packaged" d.packaged,
   (match d.usable_until with
    | none => noneLine "version.usable_until"
    | some s => sLine "version.usable_until" s),
   "\x7d\n"]

/-- The full text of the human-readable `info` manifest. -/
def writeInfo (d : InfoData) : String := String.join (infoChunks d)

/-- Hexadecimal digit characters, for JSON control-character escapes. -/
def hexDigit (n : Nat) : Char :=
  (("0123456789abcdef".data).getD n '0')

/-- JSON escaping of one character, as `json.dump` does with
`ensure_ascii=False`. -/
def jsonEscChar (c : Char) : String :=
  if c = '"' then "\\\""
  else if c = '\\' then "\\\\"
  else if c = '\n' then "\\n"
  else if c = '\t' then "\\t"
  else if c = '\r' then "\\r"
  else if c = '\x08' then "\\b"
  else if c = '\x0c' then "\\f"
  else if c.toNat < 32 then
    "\\u00" ++ String.mk [hexDigit (c.toNat / 16), hexDigit (c.toNat % 16)]
  else String.mk [c]

/-- JSON escaping of a string's characters. -/
def jsonEscape (s : String) : String := String.join (s.data.map jsonEscChar)

/-- A JSON string literal. -/
def jstr (s : String) : String := "\"" ++ jsonEscape s ++ "\""

/-- A JSON list of strings as `json.dump(..., indent=2)` renders it at the
nesting depth of a file group. -/
def jlist (xs : List String) : String :=
  match xs with
  | [] => "[]"
  | _ => "[\n" ++
      String.intercalate ",\n" (xs.map (fun x => "      " ++ jstr x)) ++
      "\n    ]"

/-- The JSON rendering of the files mapping at nesting depth 1. -/
def jfiles (fs : List (String × List String)) : String :=
  match fs with
  | [] => "\x7b\x7d"
  | _ => "\x7b\n" ++
      String.intercalate ",\n"
        (fs.map (fun p => "    " ++ jstr p.1 ++ ": " ++ jlist p.2)) ++
      "\n  \x7d"

/-- The chunks whose concatenation is `json.dump(json_data, indent=2,
ensure_ascii=False)` for the manifest record. -/
def jsonChunks (d : InfoData) : List String :=
  ["\x7b\n",
   "  \"author\": " ++ jstr d.author ++ ",\n",
   "  \"description\": " ++ jstr d.description ++ ",\n",
   "  \"download_url\": " ++ jstr d.download_url ++ ",\n",
   "  \"files\": " ++ jfiles d.files ++ ",\n",
   "  \"name\": " ++ jstr d.name ++ ",\n",
   "  \"title\": " ++ jstr d.title ++ ",\n",
   "  \"version\": " ++ jstr d.version ++ ",\n",
   "  \"version.min_required\": " ++ jstr d.min_required ++ ",\n",
   "  \"version.packaged\": " ++ jstr d.packaged ++ ",\n",
   (match d.usable_until with
    | none => "  \"version.usable_until\": null\n"
    | some s => "  \"version.usable_until\": " ++ jstr s ++ "\n"),
   "\x7d"]

/-- The full text of the `info.json` manifest. -/
def writeInfoJson (d : InfoData) : String := String.join (jsonChunks d)

/-- The manifest record assembled in `MKPBuilder.generate_metadata` from the
configuration, the resolved package name and the collected file groups
(`config.get(key, '')` for the free-form strings; `config.get(key) or None`
for `version.usable_until`, so an empty string also becomes `None`). -/
def infoDataOf (cfg : Config) (nm : String) (files : List (String × List String)) :
    InfoData :=
  { author := cfg.author.getD "",
    description := cfg.description.getD "",
    download_url := cfg.download_url.getD "",
    files := files,
    name := nm,
    title := cfg.title.getD nm,
    version := cfg.version,
    min_required := cfg.cmk_min_version,
    packaged := cfg.cmk_packaged_version,
    usable_until := match cfg.version_usable_until with
      | none => none
      | some s => if s = "" then none else some s }

/-- `MKPBuilder.generate_metadata`: the texts of `info` and `info.json`,
both serialized from the single record `info_data` (the JSON writer receives
`info_data.copy()` followed by a self-assignment, i.e. the same content). -/
def generate_metadata (cfg : Config) (nm : String)
    (files : List (String × List String)) : String × String :=
  (writeInfo (infoDataOf cfg nm files), writeInfoJson (infoDataOf cfg nm files))

/-- The fixed entry order of the final package archive. -/
def mkpFixedOrder : List String :=
  ["info", "info.json", "agents.tar", "cmk_addons_plugins.tar", "lib.tar"]

/-- The final package: its file name and its ordered entries. -/
structure Package where
  fileName : String
  entries : List String
deriving DecidableEq, Repr

/-- `MKPBuilder.create_mkp_package` (value level): the archive named
`{name}-{version}.mkp` containing, of the five fixed entries, exactly those
present in the build directory, in the fixed order. -/
def create_mkp_package (nm ver : String) (present : List String) : Package :=
  { fileName := nm ++ "-" ++ ver ++ ".mkp",
    entries := mkpFixedOrder.filter (fun f => present.contains f) }

/-- Filesystem operations performed by `MKPBuilder.create_mkp_package`, in
program order. -/
inductive FsOp where
  | mkdirp (path : List String)
  | openWrite (path : List String)
  | addEntry (nm : String)
  | closeOut
  | renameFile (src dst : List String)
deriving DecidableEq, Repr

/-- `MKPBuilder.create_mkp_package` (effect level): make the output directory,
open `{name}-{version}.mkp` inside it for writing, add the present entries one
by one, close. There is no temporary file and no rename step. -/
def create_mkp_package_ops (nm ver : String) (outputDir : List String)
    (present : List String) : List FsOp :=
  [FsOp.mkdirp outputDir,
   FsOp.openWrite (outputDir ++ [nm ++ "-" ++ ver ++ ".mkp"])]
  ++ (mkpFixedOrder.filter (fun f => present.contains f)).map FsOp.addEntry
  ++ [FsOp.closeOut]

/-- Is the operation a rename? -/
def isRenameOp : FsOp → Bool
  | .renameFile _ _ => true
  | _ => false

/-- Does the operation open a path inside the given directory for writing? -/
def opWritesInto (outputDir : List String) : FsOp → Bool
  | .openWrite p => leadSeq outputDir p
  | _ => false

/-- Modelled from the spec: "the final archive is only renamed/placed into
the output directory after being fully written" - the assembler never opens a
file inside the output directory for incremental writing; content may only
arrive there through a rename of a fully written file. -/
def specAtomicPlacement (ops : List FsOp) (outputDir : List String) : Bool :=
  ops.all (fun op => !(opWritesInto outputDir op))

mutual

/-- Failure count of `MKPBuilder.validate_python_files` over a listing:
a regular file matching `*.py` fails when it does not parse; a directory
matching `*.py` also counts (opening it raises, caught as a failure). -/
def pyFailsList : List Entry → Nat
  | [] => 0
  | e :: rest => pyFailsEntry e + pyFailsList rest

/-- Failure count contributed by one entry. -/
def pyFailsEntry : Entry → Nat
  | .file nm _ ok => if strEndsWith nm ".py" && !ok then 1 else 0
  | .dir nm cs => (if strEndsWith nm ".py" then 1 else 0) + pyFailsList cs

end

/-- Python validation failures of the whole project (`local_dir.rglob('*.py')`;
nothing is found when `local` is absent or not a directory). -/
def pyFailCount (t : List Entry) : Nat :=
  match lookupPath t ["local"] with
  | some (.dir _ cs) => pyFailsList cs
  | _ => 0

/-- Longest run of leading decimal digits of a character list, with the rest
(`\d+` matched greedily). -/
def spanDigits : List Char → List Char × List Char
  | [] => ([], [])
  | c :: cs =>
    if c.isDigit then
      let r := spanDigits cs
      (c :: r.1, r.2)
    else ([], c :: cs)

/-- The compiled form of `re.match(r'^\d+\.\d+\.\d+', s)` on a character
list: digits, dot, digits, dot, digits, then anything. -/
def tripletMatch (cs : List Char) : Bool :=
  match spanDigits cs with
  | ([], _) => false
  | (_ :: _, rest1) =>
    match rest1 with
    | '.' :: r2 =>
      (match spanDigits r2 with
       | ([], _) => false
       | (_ :: _, rest2) =>
         match rest2 with
         | '.' :: r4 => !(spanDigits r4).1.isEmpty
         | _ => false)
    | _ => false

/-- The version-format check of `MKPBuilder.validate_parameters`. -/
def versionMatches (s : String) : Bool := tripletMatch s.data

/-- The loop of `MKPBuilder._format_size` over the unit list. -/
def formatSizeAux : List String → Nat → String
  | [], n => toString n ++ "T"
  | u :: rest, n => if n < 1024 then toString n ++ u else formatSizeAux rest (n / 1024)

/-- `MKPBuilder._format_size`: binary unit steps B, K, M, G, T with floor
division at each step. -/
def format_size (n : Nat) : String := formatSizeAux ["B", "K", "M", "G"] n

/-- The unit exponent the spec prescribes: the smallest `k` with
`n / 1024^k < 1024`, capped at 4 (the `T` unit). -/
def sizeExp (n : Nat) : Nat :=
  if n < 1024 then 0
  else if n < 1024 ^ 2 then 1
  else if n < 1024 ^ 3 then 2
  else if n < 1024 ^ 4 then 3
  else 4

/-- The unit letters, indexed by exponent. -/
def sizeUnits : List String := ["B", "K", "M", "G", "T"]

/-- Observable build events: workspace creation and artifact writes. -/
inductive BEvent where
  | workspace
  | wroteTar (nm : String)
  | wroteMeta (nm : String)
  | wrotePackage (nm : String)
deriving DecidableEq, Repr

/-- `MKPBuilder.build`: resolve defaults, validate parameters in source order
(version present, name present, version format, `local` directory), run the
Python validator, then create the workspace, collect files, write the three
section tars, write the two manifests and assemble the final package. The
returned event list records workspace creation and artifact writes in
program order; every validation failure happens before any event. -/
def buildPipe (cfg : Config) (t : List Entry) : List BEvent × Except String Package :=
  match resolvedName cfg t with
  | .error e => ([], .error e)
  | .ok nm =>
    if cfg.version = "" then
      ([], .error "Package version is required. Use --version argument.")
    else if nm = "" then
      ([], .error "Package name could not be determined. Use --name argument.")
    else if !(versionMatches cfg.version) then
      ([], .error "Invalid version format")
    else if !(lookupPath t ["local"]).isSome then
      ([], .error "Local directory not found")
    else if cfg.validate_python && (pyFailCount t != 0) then
      ([], .error "Found Python syntax errors")
    else
      let files := collect_files t nm
      let tars := create_package_tars t files
      let present := tars.map Prod.fst ++ ["info", "info.json"]
      let pkg := create_mkp_package nm cfg.version present
      ([BEvent.workspace] ++ tars.map (fun x => BEvent.wroteTar x.1)
        ++ [BEvent.wroteMeta "info", BEvent.wroteMeta "info.json",
            BEvent.wrotePackage pkg.fileName],
       .ok pkg)

/-! Concrete inputs used by witnesses and counterexamples. -/

/-- A project tree whose agents directory holds only a build-cache file. -/
def TpyCex : List Entry :=
  [Entry.dir "local"
    [Entry.dir "share"
      [Entry.dir "check_mk"
        [Entry.dir "agents"
          [Entry.dir "__pycache__" [Entry.file "x.pyc" false true]]]]]]

/-- A project tree with a single executable agent plugin. -/
def TagentsW : List Entry :=
  [Entry.dir "local"
    [Entry.dir "share"
      [Entry.dir "check_mk"
        [Entry.dir "agents"
          [Entry.dir "plugins" [Entry.file "myagent" true true]]]]]]

/-- A project tree with one bakery file matching the package name. -/
def TlibW : List Entry :=
  [Entry.dir "local"
    [Entry.dir "lib"
      [Entry.dir "python3"
        [Entry.dir "cmk"
          [Entry.dir "base"
            [Entry.dir "cee"
              [Entry.dir "plugins"
                [Entry.dir "bakery"
                  [Entry.file "myagent_bakery.py" false true]]]]]]]]]

/-- A minimal valid project tree: just the `local` marker directory. -/
def TlocalW : List Entry := [Entry.dir "local" []]

/-- A fully resolved valid configuration. -/
def cfgW : Config :=
  { version := "1.0.0", name := some "myagent", title := none, author := none,
    description := none, download_url := none, cmk_min_version := "2.3.0p1",
    cmk_packaged_version := "2.3.0p34", version_usable_until := none,
    validate_python := false, output_dir := ["."], workDirName := "wd" }

/-- The same configuration with a malformed version string. -/
def cfgBad : Config := { cfgW with version := "abc" }

/-- A baseline manifest record. -/
def dBase : InfoData :=
  { author := "A", description := "B", download_url := "",
    files := [("agents", ["plugins/myagent"]), ("cmk_addons_plugins", []), ("lib", [])],
    name := "n", title := "t", version := "1.0.0", min_required := "2.3.0p1",
    packaged := "2.3.0p34", usable_until := none }

/-- The boundary text standing between the author value and the description
value in the `info` file: quote, comma, newline, then the description key. -/
def sepS : String := q1 ++ ",\n " ++ q1 ++ "description" ++ q1 ++ ": " ++ q1

/-- First colliding record: the separator text sits in the description. -/
def cexInfoA : InfoData := { dBase with author := "A", description := "B" ++ sepS ++ "C" }

/-- Second colliding record: the separator text sits in the author. -/
def cexInfoB : InfoData := { dBase with author := "A" ++ sepS ++ "B", description := "C" }

/-- The output directory used by the placement counterexample. -/
def cexOutDir : List String := ["dist"]

/-! Helper lemmas about the filesystem traversal. -/

theorem wfb_cons {e : Entry} {rest : List Entry} (h : wfb (e :: rest) = true) :
    wfbEntry e = true ∧ (rest.any (fun x => x.nameOf == e.nameOf)) = false
      ∧ wfb rest = true := by
  rw [wfb] at h
  simp only [Bool.and_eq_true, Bool.not_eq_true'] at h
  exact ⟨h.1.1, h.1.2, h.2⟩

theorem wfb_mem {es : List Entry} {e : Entry} (hwf : wfb es = true) (he : e ∈ es) :
    wfbEntry e = true := by
  induction es with
  | nil => cases he
  | cons a as ih =>
    obtain ⟨h1, _, h3⟩ := wfb_cons hwf
    rcases List.mem_cons.mp he with rfl | hm
    · exact h1
    · exact ih h3 hm

theorem findEntry_of_mem {es : List Entry} {e : Entry} (hwf : wfb es = true)
    (he : e ∈ es) : findEntry es e.nameOf = some e := by
  induction es with
  | nil => cases he
  | cons a as ih =>
    obtain ⟨_, h2, h3⟩ := wfb_cons hwf
    rcases List.mem_cons.mp he with rfl | hm
    · simp [findEntry]
    · have hne : a.nameOf ≠ e.nameOf := by
        intro hcon
        have hb : (e.nameOf == a.nameOf) = true := by rw [hcon]; exact beq_self_eq_true _
        have hany : as.any (fun x => x.nameOf == a.nameOf) = true :=
          List.any_eq_true.mpr ⟨e, hm, hb⟩
        rw [h2] at hany
        cases hany
      unfold findEntry
      rw [List.find?_cons_of_neg]
      · exact ih h3 hm
      · simp [hne]

theorem mem_of_findEntry {es : List Entry} {nm : String} {e : Entry}
    (h : findEntry es nm = some e) : e ∈ es ∧ e.nameOf = nm := by
  refine ⟨List.mem_of_find?_eq_some h, ?_⟩
  have hp := List.find?_some h
  exact eq_of_beq hp

theorem mem_childFiles {es : List Entry} {p : List String} :
    p ∈ childFiles es ↔ ∃ nm ex ok, p = [nm] ∧ Entry.file nm ex ok ∈ es := by
  unfold childFiles
  rw [List.mem_filterMap]
  constructor
  · rintro ⟨e, he, hfe⟩
    cases e with
    | file nm ex ok =>
      simp only [Option.some.injEq] at hfe
      exact ⟨nm, ex, ok, hfe.symm, he⟩
    | dir nm cs => simp at hfe
  · rintro ⟨nm, ex, ok, rfl, hmem⟩
    exact ⟨Entry.file nm ex ok, hmem, rfl⟩

theorem mem_subdirFiles {p : List String} : ∀ {es : List Entry},
    p ∈ subdirFiles es ↔
      ∃ nm cs q, p = nm :: q ∧ Entry.dir nm cs ∈ es ∧ q ∈ rglobFiles cs := by
  intro es
  induction es with
  | nil => simp [subdirFiles]
  | cons a as ih =>
    cases a with
    | file nm ex ok =>
      rw [subdirFiles, ih]
      constructor
      · rintro ⟨nm', cs, q, rfl, hm, hq⟩
        exact ⟨nm', cs, q, rfl, List.mem_cons_of_mem _ hm, hq⟩
      · rintro ⟨nm', cs, q, rfl, hm, hq⟩
        rcases List.mem_cons.mp hm with heq | hm'
        · cases heq
        · exact ⟨nm', cs, q, rfl, hm', hq⟩
    | dir nm cs =>
      rw [subdirFiles]
      rw [List.mem_append, ih]
      constructor
      · rintro (hmap | ⟨nm', cs', q, rfl, hm, hq⟩)
        · obtain ⟨q, hq, rfl⟩ := List.mem_map.mp hmap
          exact ⟨nm, cs, q, rfl, List.mem_cons_self _ _, hq⟩
        · exact ⟨nm', cs', q, rfl, List.mem_cons_of_mem _ hm, hq⟩
      · rintro ⟨nm', cs', q, rfl, hm, hq⟩
        rcases List.mem_cons.mp hm with heq | hm'
        · injection heq with e1 e2
          subst e1; subst e2
          exact Or.inl (List.mem_map.mpr ⟨q, hq, rfl⟩)
        · exact Or.inr ⟨nm', cs', q, rfl, hm', hq⟩

theorem rglob_shape {es : List Entry} {p : List String} (h : p ∈ rglobFiles es) :
    p ≠ [] := by
  rw [rglobFiles, List.mem_append] at h
  rcases h with h | h
  · obtain ⟨nm, ex, ok, rfl, _⟩ := mem_childFiles.mp h
    simp
  · obtain ⟨nm, cs, q, rfl, _, _⟩ := mem_subdirFiles.mp h
    simp

theorem lookupPath_single (es : List Entry) (n : String) :
    lookupPath es [n] = findEntry es n := by
  cases h : findEntry es n <;> simp [lookupPath, h]

theorem lookupPath_cons_none {es : List Entry} {n : String} (q : List String)
    (h : findEntry es n = none) : lookupPath es (n :: q) = none := by
  cases q <;> simp [lookupPath, h]

theorem lookupPath_cons_dir {es : List Entry} {n nm : String} {cs : List Entry}
    {q : List String} (h : findEntry es n = some (Entry.dir nm cs)) (hq : q ≠ []) :
    lookupPath es (n :: q) = lookupPath cs q := by
  cases q with
  | nil => exact absurd rfl hq
  | cons a b => simp [lookupPath, h]

theorem lookupPath_cons_file {es : List Entry} {n nm : String} {ex ok : Bool}
    {q : List String} (h : findEntry es n = some (Entry.file nm ex ok)) (hq : q ≠ []) :
    lookupPath es (n :: q) = none := by
  cases q with
  | nil => exact absurd rfl hq
  | cons a b => simp [lookupPath, h]

theorem isFileB_nil (q : List String) : isFileB [] q = false := by
  cases q <;> simp [isFileB, lookupPath, findEntry]

theorem mem_rglobFiles : ∀ (p : List String) (es : List Entry), wfb es = true →
    (p ∈ rglobFiles es ↔ isFileB es p = true) := by
  intro p
  induction p with
  | nil =>
    intro es _
    constructor
    · intro h
      exact absurd rfl (rglob_shape h)
    · intro h
      simp [isFileB, lookupPath] at h
  | cons n rest ih =>
    intro es hwf
    cases rest with
    | nil =>
      rw [rglobFiles, List.mem_append]
      constructor
      · rintro (h | h)
        · obtain ⟨nm, ex, ok, heq, hm⟩ := mem_childFiles.mp h
          injection heq with e1 _
          subst e1
          have hfe : findEntry es n = some (Entry.file n ex ok) :=
            findEntry_of_mem hwf hm
          unfold isFileB
          rw [lookupPath_single, hfe]
        · obtain ⟨nm, cs, q, heq, hm, hq⟩ := mem_subdirFiles.mp h
          injection heq with e1 e2
          exact absurd e2.symm (rglob_shape hq)
      · intro h
        unfold isFileB at h
        rw [lookupPath_single] at h
        cases hfe : findEntry es n with
        | none => rw [hfe] at h; cases h
        | some e =>
          rw [hfe] at h
          obtain ⟨hm, hname⟩ := mem_of_findEntry hfe
          cases e with
          | file nm ex ok =>
            left
            have : nm = n := hname
            subst this
            exact mem_childFiles.mpr ⟨nm, ex, ok, rfl, hm⟩
          | dir nm cs => cases h
    | cons r rs =>
      rw [rglobFiles, List.mem_append]
      constructor
      · rintro (h | h)
        · obtain ⟨nm, ex, ok, heq, _⟩ := mem_childFiles.mp h
          injection heq with _ e2
          cases e2
        · obtain ⟨nm, cs, q, heq, hm, hq⟩ := mem_subdirFiles.mp h
          injection heq with e1 e2
          subst e1; subst e2
          have hfe : findEntry es n = some (Entry.dir n cs) :=
            findEntry_of_mem hwf hm
          have hwfcs : wfb cs = true := by
            have hh := wfb_mem hwf hm
            rwa [wfbEntry] at hh
          unfold isFileB
          rw [lookupPath_cons_dir hfe (by simp)]
          exact (ih cs hwfcs).mp hq
      · intro h
        unfold isFileB at h
        cases hfe : findEntry es n with
        | none => rw [lookupPath_cons_none _ hfe] at h; cases h
        | some e =>
          obtain ⟨hm, hname⟩ := mem_of_findEntry hfe
          cases e with
          | file nm ex ok =>
            rw [lookupPath_cons_file hfe (by simp)] at h
            cases h
          | dir nm cs =>
            have hwfcs : wfb cs = true := by
              have hh := wfb_mem hwf hm
              rwa [wfbEntry] at hh
            rw [lookupPath_cons_dir hfe (by simp)] at h
            right
            have : nm = n := hname
            subst this
            exact mem_subdirFiles.mpr ⟨nm, cs, r :: rs, rfl, hm, (ih cs hwfcs).mpr h⟩

theorem collect_agents_eq (t : List Entry) :
    collect_agents_segs t = rglobFiles (childrenAt t agentsRelPath) := by
  unfold collect_agents_segs childrenAt
  cases h : lookupPath t agentsRelPath with
  | none => simp [rglobFiles, childFiles, subdirFiles]
  | some e =>
    cases e with
    | file nm ex ok => simp [rglobFiles, childFiles, subdirFiles]
    | dir nm cs => rfl

theorem collect_lib_eq (t : List Entry) (pkg : String) :
    collect_lib_segs t pkg =
      ((rglobFiles (childrenAt t bakeryAbsPath)).filter
        (fun p => strContains (lastSeg p) pkg)).map (fun p => bakerySubPath ++ p) := by
  unfold collect_lib_segs childrenAt
  cases h : lookupPath t bakeryAbsPath with
  | none => simp [rglobFiles, childFiles, subdirFiles]
  | some e =>
    cases e with
    | file nm ex ok => simp [rglobFiles, childFiles, subdirFiles]
    | dir nm cs => rfl

theorem buildPipe_valid (cfg : Config) (t : List Entry) (nm : String)
    (h1 : resolvedName cfg t = .ok nm) (h2 : cfg.version ≠ "") (h3 : nm ≠ "")
    (h4 : versionMatches cfg.version = true)
    (h5 : (lookupPath t ["local"]).isSome = true)
    (h6 : cfg.validate_python = false ∨ pyFailCount t = 0) :
    buildPipe cfg t =
      ([BEvent.workspace, BEvent.wroteTar "agents.tar",
        BEvent.wroteTar "cmk_addons_plugins.tar", BEvent.wroteTar "lib.tar",
        BEvent.wroteMeta "info", BEvent.wroteMeta "info.json",
        BEvent.wrotePackage (nm ++ "-" ++ cfg.version ++ ".mkp")],
       .ok { fileName := nm ++ "-" ++ cfg.version ++ ".mkp", entries := mkpFixedOrder }) := by
  unfold buildPipe
  rw [h1]
  dsimp only
  rw [if_neg h2, if_neg h3]
  rw [if_neg (by simp [h4])]
  rw [if_neg (by simp [h5])]
  have h6' : (cfg.validate_python && (pyFailCount t != 0)) = false := by
    rcases h6 with h | h <;> simp [h]
  rw [if_neg (by simp [h6'])]
  rfl

theorem version_error_events (cfg : Config) (t : List Entry)
    (hv : versionMatches cfg.version = false) :
    (buildPipe cfg t).1 = [] ∧ ∃ e, (buildPipe cfg t).2 = Except.error e := by
  unfold buildPipe
  cases h1 : resolvedName cfg t with
  | error e => exact ⟨rfl, e, rfl⟩
  | ok nm =>
    by_cases h2 : cfg.version = ""
    · simp [h2]
    · by_cases h3 : nm = ""
      · simp [h2, h3]
      · simp [h2, h3, hv]

/-! Helper lemmas about the version pattern. -/

theorem spanDigits_append_digits (a : List Char) (rest : List Char)
    (h : ∀ c ∈ a, c.isDigit = true) :
    spanDigits (a ++ rest) = (a ++ (spanDigits rest).1, (spanDigits rest).2) := by
  induction a with
  | nil => simp
  | cons c cs ih =>
    have hc := h c (List.mem_cons_self _ _)
    have hcs : ∀ x ∈ cs, x.isDigit = true := fun x hx => h x (List.mem_cons_of_mem _ hx)
    simp [spanDigits, hc, ih hcs]

theorem spanDigits_dot (rest : List Char) :
    spanDigits ('.' :: rest) = ([], '.' :: rest) := by
  have hd : ('.' : Char).isDigit = false := by decide
  simp [spanDigits, hd]

theorem tripletMatch_of_parts (a b c tail : List Char)
    (ha : a ≠ []) (hb : b ≠ []) (hc : c ≠ [])
    (hda : ∀ x ∈ a, x.isDigit = true) (hdb : ∀ x ∈ b, x.isDigit = true)
    (hdc : ∀ x ∈ c, x.isDigit = true) :
    tripletMatch (a ++ '.' :: (b ++ '.' :: (c ++ tail))) = true := by
  obtain ⟨a0, as, rfl⟩ := List.exists_cons_of_ne_nil ha
  obtain ⟨b0, bs, rfl⟩ := List.exists_cons_of_ne_nil hb
  obtain ⟨c0, cs, rfl⟩ := List.exists_cons_of_ne_nil hc
  unfold tripletMatch
  rw [spanDigits_append_digits _ _ hda, spanDigits_dot]
  simp only [List.append_nil]
  rw [spanDigits_append_digits _ _ hdb, spanDigits_dot]
  simp only [List.append_nil]
  rw [spanDigits_append_digits _ _ hdc]
  simp

/-! Helper lemmas about the size formatter. -/

theorem div_div_1024 (n : Nat) : n / 1024 / 1024 = n / 1024 ^ 2 := by
  rw [Nat.div_div_eq_div_mul]
  norm_num

theorem div_div_div_1024 (n : Nat) : n / 1024 / 1024 / 1024 = n / 1024 ^ 3 := by
  rw [Nat.div_div_eq_div_mul, Nat.div_div_eq_div_mul]
  norm_num

theorem div_div_div_div_1024 (n : Nat) :
    n / 1024 / 1024 / 1024 / 1024 = n / 1024 ^ 4 := by
  rw [Nat.div_div_eq_div_mul, Nat.div_div_eq_div_mul, Nat.div_div_eq_div_mul]
  norm_num

theorem div_lt_1024_iff (n : Nat) (k : Nat) :
    n / 1024 ^ k < 1024 ↔ n < 1024 ^ (k + 1) := by
  rw [Nat.div_lt_iff_lt_mul (Nat.pos_pow_of_pos k (by norm_num))]
  rw [← pow_succ']

theorem le_div_1024_iff (n : Nat) (k : Nat) :
    1024 ≤ n / 1024 ^ k ↔ 1024 ^ (k + 1) ≤ n := by
  rw [Nat.le_div_iff_mul_le (Nat.pos_pow_of_pos k (by norm_num))]
  rw [← pow_succ']

/-! Claim theorems. -/

/-- Claim C1 (amended): the FileGroup map produced by file collection, and
the files mapping carried into both serialized manifests, have exactly the
three keys "agents", "cmk_addons_plugins" and "lib" (not "agents",
"addon-plugins", "library"), and each section archive is named
`<group>.tar` after its group identifier. -/
theorem group_keys_and_archive_names (t : List Entry) (pkg : String) (cfg : Config)
    (nm : String) :
    (collect_files t pkg).map Prod.fst = ["agents", "cmk_addons_plugins", "lib"]
    ∧ (create_package_tars t (collect_files t pkg)).map Prod.fst
        = (collect_files t pkg).map (fun g => g.1 ++ ".tar")
    ∧ (infoDataOf cfg nm (collect_files t pkg)).files = collect_files t pkg :=
  ⟨rfl, rfl, rfl⟩

/-- Claim C1 (counterexample): on the empty project tree the group keys are
not "agents", "addon-plugins", "library" as the claim states. -/
theorem group_keys_cex :
    (collect_files [] "p").map Prod.fst ≠ ["agents", "addon-plugins", "library"] := by
  decide

/-- Claim C2 (amended): the agents group contains exactly the regular files
found anywhere under `local/share/check_mk/agents`, recorded relative to that
directory, with no build-cache exclusion. -/
theorem agents_group_exact (t : List Entry) (pkg : String)
    (hwf : wfb (childrenAt t agentsRelPath) = true) :
    getGroup (collect_files t pkg) "agents" = (collect_agents_segs t).map joinPath
    ∧ ∀ p, p ∈ collect_agents_segs t ↔ isFileB (childrenAt t agentsRelPath) p = true := by
  refine ⟨rfl, fun p => ?_⟩
  rw [collect_agents_eq]
  exact mem_rglobFiles p _ hwf

/-- Claim C2 (witness): the amended statement evaluated on a concrete tree
with one agent plugin. -/
theorem agents_group_exact_witness :
    wfb (childrenAt TagentsW agentsRelPath) = true
    ∧ (getGroup (collect_files TagentsW "p") "agents"
          = (collect_agents_segs TagentsW).map joinPath
        ∧ ∀ p, p ∈ collect_agents_segs TagentsW
            ↔ isFileB (childrenAt TagentsW agentsRelPath) p = true) :=
  ⟨by simp [TagentsW, childrenAt, lookupPath, findEntry, Entry.nameOf, agentsRelPath,
       wfb, wfbEntry],
   agents_group_exact TagentsW "p"
     (by simp [TagentsW, childrenAt, lookupPath, findEntry, Entry.nameOf, agentsRelPath,
       wfb, wfbEntry])⟩

/-- Claim C2 (counterexample): a file inside a `__pycache__` build-cache
directory is collected into the agents group, contradicting the claimed
exclusion of paths containing a build-cache segment. -/
theorem agents_cache_cex :
    getGroup (collect_files TpyCex "p") "agents" = ["__pycache__/x.pyc"]
    ∧ hasCacheSeg "__pycache__/x.pyc" = true := by
  constructor
  · have hstep : getGroup (collect_files TpyCex "p") "agents"
        = [joinPath ["__pycache__", "x.pyc"]] := by
      simp [TpyCex, collect_files, collect_agents_segs, getGroup, lookupPath, findEntry,
        Entry.nameOf, agentsRelPath, rglobFiles, subdirFiles, childFiles]
    rw [hstep]
    decide
  · decide

/-- Claim C3 (counterexample): the assembler opens the final archive for
writing directly inside the output directory and performs no rename at all,
so the archive is not placed there only after being fully written. -/
theorem atomic_placement_cex :
    specAtomicPlacement (create_mkp_package_ops "p" "1.0.0" cexOutDir mkpFixedOrder)
        cexOutDir = false
    ∧ (create_mkp_package_ops "p" "1.0.0" cexOutDir mkpFixedOrder).all
        (fun op => !(isRenameOp op)) = true := by
  constructor
  · decide
  · decide

/-- Claim C3 (amended): the final archive is created directly at its final
path inside the output directory and written incrementally (make the output
directory, open the archive there, add the present entries, close); no
rename step exists, so an interrupted write can leave a partial archive in
the output directory. -/
theorem package_written_in_place (nm ver : String) (outputDir present : List String) :
    ∃ adds : List FsOp,
      create_mkp_package_ops nm ver outputDir present
        = [FsOp.mkdirp outputDir,
           FsOp.openWrite (outputDir ++ [nm ++ "-" ++ ver ++ ".mkp"])] ++ adds
          ++ [FsOp.closeOut]
      ∧ (∀ a ∈ adds, ∃ e, a = FsOp.addEntry e)
      ∧ ∀ op ∈ create_mkp_package_ops nm ver outputDir present, isRenameOp op = false := by
  refine ⟨(mkpFixedOrder.filter (fun f => present.contains f)).map FsOp.addEntry,
    rfl, ?_, ?_⟩
  · intro a ha
    obtain ⟨e, _, rfl⟩ := List.mem_map.mp ha
    exact ⟨e, rfl⟩
  · intro op hop
    unfold create_mkp_package_ops at hop
    rw [List.mem_append, List.mem_append] at hop
    rcases hop with (hop | hop) | hop
    · rcases List.mem_cons.mp hop with rfl | hop
      · rfl
      · rcases List.mem_cons.mp hop with rfl | hop
        · rfl
        · cases hop
    · obtain ⟨e, _, rfl⟩ := List.mem_map.mp hop
      rfl
    · rcases List.mem_cons.mp hop with rfl | hop
      · rfl
      · cases hop

/-- Claim C4 (counterexample): the hand-written `info` serializer splices
string values in verbatim without escaping, so two different manifest
records collide on the very same `info` text while their `info.json` texts
differ; hence no parser can recover identical key/value content from both
manifest forms for every build. -/
theorem manifest_roundtrip_cex :
    cexInfoA ≠ cexInfoB
    ∧ writeInfo cexInfoA = writeInfo cexInfoB
    ∧ writeInfoJson cexInfoA ≠ writeInfoJson cexInfoB
    ∧ ¬ ∃ f : String → Option InfoData, ∀ d : InfoData, f (writeInfo d) = some d := by
  refine ⟨by decide, by decide, by decide, ?_⟩
  rintro ⟨f, hf⟩
  have h1 := hf cexInfoA
  have h2 := hf cexInfoB
  have hw : writeInfo cexInfoA = writeInfo cexInfoB := by decide
  rw [hw, h2] at h1
  have hne : cexInfoA ≠ cexInfoB := by decide
  exact hne (Option.some.inj h1).symm

/-- Claim C4 (amended): both manifest files are serialized from the one
identical in-memory record, and when `version.usable_until` is absent (or
empty) it is emitted as an explicit `None` in the literal form and `null` in
the JSON form; parse-back equality of the two forms is not guaranteed in
general because the literal writer does not escape string values. -/
theorem manifests_single_record (cfg : Config) (nm : String)
    (files : List (String × List String))
    (h : cfg.version_usable_until = none ∨ cfg.version_usable_until = some "") :
    (generate_metadata cfg nm files).1 = writeInfo (infoDataOf cfg nm files)
    ∧ (generate_metadata cfg nm files).2 = writeInfoJson (infoDataOf cfg nm files)
    ∧ (infoDataOf cfg nm files).usable_until = none
    ∧ noneLine "version.usable_until" ∈ infoChunks (infoDataOf cfg nm files)
    ∧ "  \"version.usable_until\": null\n" ∈ jsonChunks (infoDataOf cfg nm files) := by
  have hu : (infoDataOf cfg nm files).usable_until = none := by
    rcases h with h | h <;> simp [infoDataOf, h]
  refine ⟨rfl, rfl, hu, ?_, ?_⟩
  · unfold infoChunks
    rw [hu]
    simp
  · unfold jsonChunks
    rw [hu]
    simp

/-- Claim C4 (witness): the amended statement evaluated on the concrete
valid configuration, which has no `version.usable_until`. -/
theorem manifests_single_record_witness :
    (cfgW.version_usable_until = none ∨ cfgW.version_usable_until = some "")
    ∧ ((generate_metadata cfgW "myagent" (collect_files TagentsW "myagent")).1
          = writeInfo (infoDataOf cfgW "myagent" (collect_files TagentsW "myagent"))
        ∧ (generate_metadata cfgW "myagent" (collect_files TagentsW "myagent")).2
          = writeInfoJson (infoDataOf cfgW "myagent" (collect_files TagentsW "myagent"))
        ∧ (infoDataOf cfgW "myagent" (collect_files TagentsW "myagent")).usable_until = none
        ∧ noneLine "version.usable_until"
            ∈ infoChunks (infoDataOf cfgW "myagent" (collect_files TagentsW "myagent"))
        ∧ "  \"version.usable_until\": null\n"
            ∈ jsonChunks (infoDataOf cfgW "myagent" (collect_files TagentsW "myagent"))) :=
  ⟨Or.inl rfl,
   manifests_single_record cfgW "myagent" (collect_files TagentsW "myagent") (Or.inl rfl)⟩

/-- Claim C5: every version string rejected by the leading pattern
`^\d+\.\d+\.\d+` makes the build fail with no workspace created and no
artifact written, and conversely every string beginning with a dotted
numeric triplet (arbitrary trailing suffix) passes the version check. -/
theorem version_validation_gate :
    (∀ (cfg : Config) (t : List Entry), versionMatches cfg.version = false →
       (buildPipe cfg t).1 = [] ∧ ∃ e, (buildPipe cfg t).2 = Except.error e)
    ∧ (∀ (a b c tail : List Char), a ≠ [] → b ≠ [] → c ≠ [] →
        (∀ x ∈ a, x.isDigit = true) → (∀ x ∈ b, x.isDigit = true) →
        (∀ x ∈ c, x.isDigit = true) →
        versionMatches (String.mk (a ++ '.' :: (b ++ '.' :: (c ++ tail)))) = true) := by
  constructor
  · exact fun cfg t hv => version_error_events cfg t hv
  · intro a b c tail ha hb hc hda hdb hdc
    exact tripletMatch_of_parts a b c tail ha hb hc hda hdb hdc

/-- Claim C5 (witness): the gate evaluated at the malformed version "abc"
(no events, an error) and at the well-formed version "1.2.3.rc1". -/
theorem version_validation_gate_witness :
    (versionMatches cfgBad.version = false
      ∧ ((buildPipe cfgBad []).1 = []
          ∧ ∃ e, (buildPipe cfgBad []).2 = Except.error e))
    ∧ versionMatches (String.mk (['1'] ++ '.' :: (['2'] ++ '.' :: (['3'] ++ ".rc1".data))))
        = true :=
  ⟨⟨by decide, version_validation_gate.1 cfgBad [] (by decide)⟩,
   version_validation_gate.2 ['1'] ['2'] ['3'] ".rc1".data (by decide) (by decide)
     (by decide) (by decide) (by decide) (by decide)⟩

/-- Claim C6: the final package is one archive named `{name}-{version}.mkp`
in the output directory (created first), containing, in the fixed order, the
two manifest files then the three section archives, with any absent entry
simply omitted; on a valid configuration the build succeeds whatever the
project tree, so empty or absent groups never cause a failure. -/
theorem final_package_shape :
    (∀ (nm ver : String) (outputDir present : List String),
       (create_mkp_package nm ver present).fileName = nm ++ "-" ++ ver ++ ".mkp"
       ∧ (create_mkp_package nm ver present).entries.Sublist mkpFixedOrder
       ∧ (∀ e, e ∈ (create_mkp_package nm ver present).entries ↔
            e ∈ mkpFixedOrder ∧ present.contains e = true)
       ∧ (create_mkp_package_ops nm ver outputDir present).head?
           = some (FsOp.mkdirp outputDir))
    ∧ ∀ (cfg : Config) (t : List Entry) (nm : String),
        resolvedName cfg t = .ok nm → cfg.version ≠ "" → nm ≠ "" →
        versionMatches cfg.version = true → (lookupPath t ["local"]).isSome = true →
        (cfg.validate_python = false ∨ pyFailCount t = 0) →
        (buildPipe cfg t).2 = .ok
          { fileName := nm ++ "-" ++ cfg.version ++ ".mkp", entries := mkpFixedOrder } := by
  constructor
  · intro nm ver outputDir present
    refine ⟨rfl, List.filter_sublist _, fun e => ?_, rfl⟩
    simp [create_mkp_package, List.mem_filter]
  · intro cfg t nm h1 h2 h3 h4 h5 h6
    rw [buildPipe_valid cfg t nm h1 h2 h3 h4 h5 h6]

/-- Claim C6 (witness): a valid build over the minimal project tree (all
groups empty) succeeds and produces `myagent-1.0.0.mkp`. -/
theorem final_package_shape_witness :
    cfgW.version ≠ ""
    ∧ (buildPipe cfgW TlocalW).2
        = .ok { fileName := "myagent" ++ "-" ++ cfgW.version ++ ".mkp",
                entries := mkpFixedOrder } :=
  ⟨by decide,
   final_package_shape.2 cfgW TlocalW "myagent" rfl (by decide) (by decide) (by decide)
     (by decide) (Or.inl rfl)⟩

/-- Claim C7: the library group contains exactly the regular files under the
bakery directory whose name contains the package name, recorded relative to
`local/lib/python3` (keeping the full `cmk/...` sub-path); an absent bakery
directory yields an empty group, and a valid build still succeeds. -/
theorem lib_group_exact (t : List Entry) (pkg : String)
    (hwf : wfb (childrenAt t bakeryAbsPath) = true) :
    (∀ p, p ∈ collect_lib_segs t pkg ↔
       ∃ q, p = bakerySubPath ++ q
         ∧ isFileB (childrenAt t bakeryAbsPath) q = true
         ∧ strContains (lastSeg q) pkg = true)
    ∧ getGroup (collect_files t pkg) "lib" = (collect_lib_segs t pkg).map joinPath
    ∧ (lookupPath t bakeryAbsPath = none → collect_lib_segs t pkg = [])
    ∧ ∀ (cfg : Config) (nm : String), resolvedName cfg t = .ok nm → cfg.version ≠ "" →
        nm ≠ "" → versionMatches cfg.version = true →
        (lookupPath t ["local"]).isSome = true →
        (cfg.validate_python = false ∨ pyFailCount t = 0) →
        ∃ pk, (buildPipe cfg t).2 = .ok pk := by
  refine ⟨?_, rfl, ?_, ?_⟩
  · intro p
    rw [collect_lib_eq]
    constructor
    · intro hp
      obtain ⟨q, hq, rfl⟩ := List.mem_map.mp hp
      rw [List.mem_filter] at hq
      exact ⟨q, rfl, (mem_rglobFiles q _ hwf).mp hq.1, hq.2⟩
    · rintro ⟨q, rfl, hfile, hcont⟩
      exact List.mem_map.mpr
        ⟨q, List.mem_filter.mpr ⟨(mem_rglobFiles q _ hwf).mpr hfile, hcont⟩, rfl⟩
  · intro hnone
    unfold collect_lib_segs
    rw [hnone]
  · intro cfg nm h1 h2 h3 h4 h5 h6
    exact ⟨_, by rw [buildPipe_valid cfg t nm h1 h2 h3 h4 h5 h6]⟩

/-- Claim C7 (witness): the statement evaluated on a concrete tree with one
matching bakery file. -/
theorem lib_group_exact_witness :
    wfb (childrenAt TlibW bakeryAbsPath) = true
    ∧ ((∀ p, p ∈ collect_lib_segs TlibW "myagent" ↔
         ∃ q, p = bakerySubPath ++ q
           ∧ isFileB (childrenAt TlibW bakeryAbsPath) q = true
           ∧ strContains (lastSeg q) "myagent" = true)
      ∧ getGroup (collect_files TlibW "myagent") "lib"
          = (collect_lib_segs TlibW "myagent").map joinPath
      ∧ (lookupPath TlibW bakeryAbsPath = none → collect_lib_segs TlibW "myagent" = [])
      ∧ ∀ (cfg : Config) (nm : String), resolvedName cfg TlibW = .ok nm →
          cfg.version ≠ "" → nm ≠ "" → versionMatches cfg.version = true →
          (lookupPath TlibW ["local"]).isSome = true →
          (cfg.validate_python = false ∨ pyFailCount TlibW = 0) →
          ∃ pk, (buildPipe cfg TlibW).2 = .ok pk) :=
  ⟨by simp [TlibW, childrenAt, lookupPath, findEntry, Entry.nameOf, bakeryAbsPath,
     libRelPath, bakerySubPath, wfb, wfbEntry],
   lib_group_exact TlibW "myagent"
     (by simp [TlibW, childrenAt, lookupPath, findEntry, Entry.nameOf, bakeryAbsPath,
       libRelPath, bakerySubPath, wfb, wfbEntry])⟩

/-- Claim C8 (counterexample): with no plugins directory and an empty
working-directory name, the auto-detected name is "unknown_package", not the
working directory's own (empty) name as the claim states. -/
theorem auto_detect_cex :
    auto_detect_package_name [] "" = Except.ok "unknown_package"
    ∧ "unknown_package" ≠ "" := by
  constructor
  · rfl
  · decide

/-- Claim C8 (amended): when no name is configured, a plugins directory with
exactly one executable regular file yields that file's name; otherwise the
working directory's name is used, with "unknown_package" substituted when
that name is empty (and a plugins path that exists as a non-directory makes
name detection fail instead). -/
theorem auto_detect_name (t : List Entry) (wd : String)
    (hnf : isFileB t pluginsAbsPath = false) :
    auto_detect_package_name t wd =
      Except.ok
        (match (childrenAt t pluginsAbsPath).filter (fun e => e.isFile && e.isExec) with
         | [p] => p.nameOf
         | _ => if wd = "" then "unknown_package" else wd) := by
  unfold auto_detect_package_name childrenAt
  unfold isFileB at hnf
  cases h : lookupPath t pluginsAbsPath with
  | none => rfl
  | some e =>
    rw [h] at hnf
    cases e with
    | file nm ex ok => simp at hnf
    | dir nm cs =>
      dsimp only
      cases hfl : cs.filter (fun e => e.isFile && e.isExec) with
      | nil => rfl
      | cons p ps =>
        cases ps with
        | nil => rfl
        | cons q qs => rfl

/-- Claim C8 (witness): the amended statement on a tree whose plugins
directory holds the single executable `myagent`. -/
theorem auto_detect_name_witness :
    isFileB TagentsW pluginsAbsPath = false
    ∧ auto_detect_package_name TagentsW "wd" =
        Except.ok
          (match (childrenAt TagentsW pluginsAbsPath).filter
              (fun e => e.isFile && e.isExec) with
           | [p] => p.nameOf
           | _ => if "wd" = "" then "unknown_package" else "wd") :=
  ⟨by decide, auto_detect_name TagentsW "wd" (by decide)⟩

theorem le_div_pow_of_bound {n k j : Nat} (h : ¬ n < 1024 ^ k) (hj : j + 1 ≤ k) :
    1024 ≤ n / 1024 ^ j := by
  rw [le_div_1024_iff]
  calc 1024 ^ (j + 1) ≤ 1024 ^ k := Nat.pow_le_pow_right (by norm_num) hj
    _ ≤ n := Nat.le_of_not_lt h

/-- Claim C9: for every byte count, the reported size is
`floor(n / 1024^k)` followed by the unit `B`, `K`, `M`, `G` or `T`, where
`k` is the smallest exponent making the quotient less than 1024, capped at
the `T` exponent: 1024-based steps, truncated, never rounded up. -/
theorem format_size_spec (n : Nat) :
    format_size n = toString (n / 1024 ^ sizeExp n) ++ sizeUnits.getD (sizeExp n) "T"
    ∧ (sizeExp n = 4 ∨ n / 1024 ^ sizeExp n < 1024)
    ∧ ∀ j, j < sizeExp n → 1024 ≤ n / 1024 ^ j := by
  by_cases h0 : n < 1024
  · have he : sizeExp n = 0 := by unfold sizeExp; rw [if_pos h0]
    refine ⟨?_, Or.inr ?_, ?_⟩
    · rw [he]
      simp only [format_size, formatSizeAux]
      rw [if_pos h0, pow_zero, Nat.div_one]
      rfl
    · rw [he, pow_zero, Nat.div_one]
      exact h0
    · intro j hj
      rw [he] at hj
      omega
  · by_cases h1 : n < 1024 ^ 2
    · have he : sizeExp n = 1 := by unfold sizeExp; rw [if_neg h0, if_pos h1]
      have hd1 : n / 1024 < 1024 := by
        have h := (div_lt_1024_iff n 1).mpr h1
        rwa [pow_one] at h
      refine ⟨?_, Or.inr ?_, ?_⟩
      · rw [he]
        simp only [format_size, formatSizeAux]
        rw [if_neg h0, if_pos hd1, pow_one]
        rfl
      · rw [he, pow_one]
        exact hd1
      · intro j hj
        rw [he] at hj
        have hj0 : j = 0 := by omega
        subst hj0
        exact le_div_pow_of_bound (k := 1) (by rwa [pow_one]) (by omega)
    · have hd1 : ¬ n / 1024 < 1024 := by
        intro hcon
        apply h1
        exact (div_lt_1024_iff n 1).mp (by rwa [pow_one])
      by_cases h2 : n < 1024 ^ 3
      · have he : sizeExp n = 2 := by unfold sizeExp; rw [if_neg h0, if_neg h1, if_pos h2]
        have hd2 : n / 1024 / 1024 < 1024 := by
          rw [div_div_1024]
          exact (div_lt_1024_iff n 2).mpr h2
        refine ⟨?_, Or.inr ?_, ?_⟩
        · rw [he]
          simp only [format_size, formatSizeAux]
          rw [if_neg h0, if_neg hd1, if_pos hd2, div_div_1024]
          rfl
        · rw [he, ← div_div_1024]
          exact hd2
        · intro j hj
          rw [he] at hj
          exact le_div_pow_of_bound (k := 2) h1 (by omega)
      · have hd2 : ¬ n / 1024 / 1024 < 1024 := by
          rw [div_div_1024]
          intro hcon
          exact h2 ((div_lt_1024_iff n 2).mp hcon)
        by_cases h3 : n < 1024 ^ 4
        · have he : sizeExp n = 3 := by
            unfold sizeExp; rw [if_neg h0, if_neg h1, if_neg h2, if_pos h3]
          have hd3 : n / 1024 / 1024 / 1024 < 1024 := by
            rw [div_div_div_1024]
            exact (div_lt_1024_iff n 3).mpr h3
          refine ⟨?_, Or.inr ?_, ?_⟩
          · rw [he]
            simp only [format_size, formatSizeAux]
            rw [if_neg h0, if_neg hd1, if_neg hd2, if_pos hd3, div_div_div_1024]
            rfl
          · rw [he, ← div_div_div_1024]
            exact hd3
          · intro j hj
            rw [he] at hj
            exact le_div_pow_of_bound (k := 3) h2 (by omega)
        · have he : sizeExp n = 4 := by
            unfold sizeExp; rw [if_neg h0, if_neg h1, if_neg h2, if_neg h3]
          have hd3 : ¬ n / 1024 / 1024 / 1024 < 1024 := by
            rw [div_div_div_1024]
            intro hcon
            exact h3 ((div_lt_1024_iff n 3).mp hcon)
          refine ⟨?_, Or.inl he, ?_⟩
          · rw [he]
            simp only [format_size, formatSizeAux]
            rw [if_neg h0, if_neg hd1, if_neg hd2, if_neg hd3, div_div_div_div_1024]
            rfl
          · intro j hj
            rw [he] at hj
            exact le_div_pow_of_bound (k := 4) h3 (by omega)

/-- Claim C9 (witness): the size formatter evaluated at 5000000 bytes,
together with the minimality fact at the exponent 0. -/
theorem format_size_spec_witness :
    format_size 5000000
        = toString (5000000 / 1024 ^ sizeExp 5000000) ++ sizeUnits.getD (sizeExp 5000000) "T"
    ∧ (0 < sizeExp 5000000 ∧ 1024 ≤ 5000000 / 1024 ^ 0) :=
  ⟨(format_size_spec 5000000).1,
   by norm_num [sizeExp], (format_size_spec 5000000).2.2 0 (by norm_num [sizeExp])⟩

/-- Claim C10: every build that reaches assembly has created all three
section archives (an empty group still yields a tar) and both manifests, so
the final package contains exactly the five entries `info`, `info.json`,
`agents.tar`, `cmk_addons_plugins.tar`, `lib.tar` in that order and the
missing-entry branch of the assembler never drops anything. -/
theorem assembly_always_complete (cfg : Config) (t : List Entry) (nm : String)
    (h1 : resolvedName cfg t = .ok nm) (h2 : cfg.version ≠ "") (h3 : nm ≠ "")
    (h4 : versionMatches cfg.version = true)
    (h5 : (lookupPath t ["local"]).isSome = true)
    (h6 : cfg.validate_python = false ∨ pyFailCount t = 0) :
    (∀ fs, (create_package_tars t fs).map Prod.fst
        = ["agents.tar", "cmk_addons_plugins.tar", "lib.tar"])
    ∧ ∃ pk, (buildPipe cfg t).2 = .ok pk
        ∧ pk.entries
            = ["info", "info.json", "agents.tar", "cmk_addons_plugins.tar", "lib.tar"] := by
  refine ⟨fun fs => rfl, ⟨_, by rw [buildPipe_valid cfg t nm h1 h2 h3 h4 h5 h6], rfl⟩⟩

/-- Claim C10 (witness): the assembly invariant evaluated on a concrete
valid build whose agents and addons groups are empty. -/
theorem assembly_always_complete_witness :
    versionMatches cfgW.version = true
    ∧ ((∀ fs, (create_package_tars TlibW fs).map Prod.fst
          = ["agents.tar", "cmk_addons_plugins.tar", "lib.tar"])
      ∧ ∃ pk, (buildPipe cfgW TlibW).2 = .ok pk
          ∧ pk.entries
              = ["info", "info.json", "agents.tar", "cmk_addons_plugins.tar", "lib.tar"]) :=
  ⟨by decide,
   assembly_always_complete cfgW TlibW "myagent" rfl (by decide) (by decide) (by decide)
     (by decide) (Or.inl rfl)⟩

end MkpBuilder
